import Mathlib

/-!
Shallow embedding of `recruiter_rm.py` (recruiter relationship manager).

The program is a linear mail pipeline: fetch messages from a source IMAP
folder, skip messages that are already replies, extract the recruiter's
name and company from a text-completion response, render a fixed reply
template, send the reply over SMTP, append a copy to the sent folder and
move the original to a done folder.

External collaborators (IMAP, SMTP, the completion service) are modelled
as oracles: per-message booleans say whether each external call raises,
and the completion text returned by the service is an oracle string.
Mailbox state is the source / done / sent folder contents; every
externally visible action is recorded in an event trace.

String-processing parts of the source (`textwrap.dedent`, `str.splitlines`,
`json.loads`, and the regular expression `.*({.*})` used to cut a JSON
object out of the completion) are embedded as executable functions on
`List Char`.
-/

/-! ### Python `str.splitlines` and newline splitting

`pySplitlines` models Python `str.splitlines()` for the line boundaries
`\n`, `\r\n` and `\r` (the rarer unicode boundaries such as `\v`, `\f`,
` ` are not modelled; no input in this development contains them).
`splitNl` splits on `\n` alone, which is how both `textwrap.dedent`
(via its `(?m)` regexes) and `re` line handling treat text.
-/

def splitlinesAux : List Char → List Char → List (List Char)
  | [], [] => []
  | [], acc => [acc.reverse]
  | '\r' :: '\n' :: rest, acc => acc.reverse :: splitlinesAux rest []
  | '\n' :: rest, acc => acc.reverse :: splitlinesAux rest []
  | '\r' :: rest, acc => acc.reverse :: splitlinesAux rest []
  | c :: rest, acc => splitlinesAux rest (c :: acc)

def pySplitlines (s : String) : List String :=
  (splitlinesAux s.data []).map String.mk

def splitNlAux : List Char → List Char → List (List Char)
  | [], acc => [acc.reverse]
  | '\n' :: rest, acc => acc.reverse :: splitNlAux rest []
  | c :: rest, acc => splitNlAux rest (c :: acc)

def splitNl (l : List Char) : List (List Char) :=
  splitNlAux l []

/-! ### `textwrap.dedent`

Model of CPython `textwrap.dedent`: whitespace-only lines are first
normalized to empty lines, the margin is the longest common prefix of the
leading space/tab runs of all nonempty lines, and that margin is removed
from the start of every line that begins with it.
-/

def isSpaceTab (c : Char) : Bool :=
  c = ' ' || c = '\t'

def isWsOnly (l : List Char) : Bool :=
  !l.isEmpty && l.all isSpaceTab

def leadingWs (l : List Char) : List Char :=
  l.takeWhile isSpaceTab

def commonPrefix : List Char → List Char → List Char
  | a :: as, b :: bs => if a = b then a :: commonPrefix as bs else []
  | _, _ => []

def joinNl : List (List Char) → List Char
  | [] => []
  | [l] => l
  | l :: ls => l ++ '\n' :: joinNl ls

def dedent (s : String) : String :=
  let ls := (splitNl s.data).map (fun l => if isWsOnly l then [] else l)
  let indents := ls.filterMap (fun l => if l.isEmpty then none else some (leadingWs l))
  let margin :=
    match indents with
    | [] => []
    | i :: rest => rest.foldl commonPrefix i
  String.mk (joinNl (ls.map (fun l => if margin.isPrefixOf l then l.drop margin.length else l)))

/-! ### JSON (`json.loads`)

Syntax-level model of `json.loads`: values are null, booleans, numbers
(kept as their validated lexeme), strings (with the standard escapes
decoded), arrays and objects.  The CPython extensions `NaN` / `Infinity`
are not modelled; no input in this development uses them.  Duplicate
object keys keep the last binding, as a Python dict does.
-/

inductive Json where
  | null
  | bool (b : Bool)
  | num (lexeme : String)
  | str (s : String)
  | arr (elems : List Json)
  | obj (members : List (String × Json))
deriving Repr

def jsonWsChar (c : Char) : Bool :=
  c = ' ' || c = '\t' || c = '\n' || c = '\r'

def skipWs (l : List Char) : List Char :=
  l.dropWhile jsonWsChar

def hexVal (c : Char) : Option Nat :=
  if '0' ≤ c ∧ c ≤ '9' then some (c.toNat - '0'.toNat)
  else if 'a' ≤ c ∧ c ≤ 'f' then some (c.toNat - 'a'.toNat + 10)
  else if 'A' ≤ c ∧ c ≤ 'F' then some (c.toNat - 'A'.toNat + 10)
  else none

/-- Body of a JSON string after the opening quote; returns the decoded
characters and the rest of the input after the closing quote. -/
def parseStringBody : List Char → Option (List Char × List Char)
  | [] => none
  | '"' :: rest => some ([], rest)
  | '\\' :: 'u' :: a :: b :: c :: d :: rest =>
    match hexVal a, hexVal b, hexVal c, hexVal d with
    | some x, some y, some z, some w =>
      (parseStringBody rest).map
        (fun r => (Char.ofNat (((x * 16 + y) * 16 + z) * 16 + w) :: r.1, r.2))
    | _, _, _, _ => none
  | '\\' :: e :: rest =>
    let esc : Option Char :=
      if e = '"' then some '"'
      else if e = '\\' then some '\\'
      else if e = '/' then some '/'
      else if e = 'b' then some (Char.ofNat 8)
      else if e = 'f' then some (Char.ofNat 12)
      else if e = 'n' then some '\n'
      else if e = 'r' then some '\r'
      else if e = 't' then some '\t'
      else none
    match esc with
    | none => none
    | some ec => (parseStringBody rest).map (fun r => (ec :: r.1, r.2))
  | c :: rest =>
    if c.toNat < 32 then none
    else (parseStringBody rest).map (fun r => (c :: r.1, r.2))

def digitSpan (l : List Char) : List Char × List Char :=
  (l.takeWhile Char.isDigit, l.dropWhile Char.isDigit)

/-- Integer part of a JSON number: `0`, or a nonzero digit followed by digits. -/
def parseIntPart : List Char → Option (List Char × List Char)
  | '0' :: rest => some (['0'], rest)
  | c :: rest =>
    if c.isDigit then
      let s := digitSpan rest
      some (c :: s.1, s.2)
    else none
  | [] => none

def parseFracPart (l : List Char) : Option (List Char × List Char) :=
  match l with
  | '.' :: rest =>
    match digitSpan rest with
    | ([], _) => none
    | (ds, rest2) => some ('.' :: ds, rest2)
  | _ => some ([], l)

def parseExpPart (l : List Char) : Option (List Char × List Char) :=
  match l with
  | e :: rest =>
    if e = 'e' ∨ e = 'E' then
      match rest with
      | s :: rest2 =>
        if s = '+' ∨ s = '-' then
          match digitSpan rest2 with
          | ([], _) => none
          | (ds, rest3) => some (e :: s :: ds, rest3)
        else
          match digitSpan rest with
          | ([], _) => none
          | (ds, rest3) => some (e :: ds, rest3)
      | [] => none
    else some ([], l)
  | [] => some ([], l)

/-- JSON number lexeme: optional minus, integer part, optional fraction and
exponent.  Returns the lexeme characters and the rest of the input. -/
def parseNumber (l : List Char) : Option (List Char × List Char) :=
  let (sign, afterSign) :=
    match l with
    | '-' :: rest => (['-'], rest)
    | _ => (([] : List Char), l)
  match parseIntPart afterSign with
  | none => none
  | some (ip, rest1) =>
    match parseFracPart rest1 with
    | none => none
    | some (fp, rest2) =>
      match parseExpPart rest2 with
      | none => none
      | some (ep, rest3) => some (sign ++ ip ++ fp ++ ep, rest3)

mutual

def parseValue : Nat → List Char → Option (Json × List Char)
  | 0, _ => none
  | fuel + 1, cs =>
    match skipWs cs with
    | '{' :: rest =>
      match skipWs rest with
      | '}' :: rest2 => some (Json.obj [], rest2)
      | _ =>
        match parseMembers fuel rest with
        | some (kvs, rest2) =>
          match skipWs rest2 with
          | '}' :: rest3 => some (Json.obj kvs, rest3)
          | _ => none
        | none => none
    | '[' :: rest =>
      match skipWs rest with
      | ']' :: rest2 => some (Json.arr [], rest2)
      | _ =>
        match parseElements fuel rest with
        | some (xs, rest2) =>
          match skipWs rest2 with
          | ']' :: rest3 => some (Json.arr xs, rest3)
          | _ => none
        | none => none
    | '"' :: rest =>
      (parseStringBody rest).map (fun r => (Json.str (String.mk r.1), r.2))
    | 't' :: 'r' :: 'u' :: 'e' :: rest => some (Json.bool true, rest)
    | 'f' :: 'a' :: 'l' :: 's' :: 'e' :: rest => some (Json.bool false, rest)
    | 'n' :: 'u' :: 'l' :: 'l' :: rest => some (Json.null, rest)
    | cs2 => (parseNumber cs2).map (fun r => (Json.num (String.mk r.1), r.2))

def parseMembers : Nat → List Char → Option (List (String × Json) × List Char)
  | 0, _ => none
  | fuel + 1, cs =>
    match skipWs cs with
    | '"' :: rest =>
      match parseStringBody rest with
      | some (key, rest2) =>
        match skipWs rest2 with
        | ':' :: rest3 =>
          match parseValue fuel rest3 with
          | some (v, rest4) =>
            match skipWs rest4 with
            | ',' :: rest5 =>
              match parseMembers fuel rest5 with
              | some (kvs, rest6) => some ((String.mk key, v) :: kvs, rest6)
              | none => none
            | rest5 => some ([(String.mk key, v)], rest5)
          | none => none
        | _ => none
      | none => none
    | _ => none

def parseElements : Nat → List Char → Option (List Json × List Char)
  | 0, _ => none
  | fuel + 1, cs =>
    match parseValue fuel cs with
    | some (v, rest) =>
      match skipWs rest with
      | ',' :: rest2 =>
        match parseElements fuel rest2 with
        | some (xs, rest3) => some (v :: xs, rest3)
        | none => none
      | rest2 => some ([v], rest2)
    | none => none

end

/-- Model of `json.loads`: parse one value, allow surrounding whitespace,
reject trailing data. -/
def jsonParse (s : String) : Option Json :=
  match parseValue (s.data.length + 1) s.data with
  | some (j, rest) => if (skipWs rest).isEmpty then some j else none
  | none => none

/-! ### The completion-cleanup regular expression

`get_recruiter_name_and_company` cuts a JSON object out of the raw
completion with `re.search` of the pattern dot-star, then a brace group:
`.*({.*})` (braces escaped in the source).  Since `.` does not match a
newline, the match lies entirely inside one `\n`-separated line; `re.search`
takes the first line in which the pattern can match at all, and inside
that line the greedy `.*` makes the group run from the last `{` that
precedes the line's last `}`, through that last `}`.
-/

/-- Index of the last occurrence of `c`, if any. -/
def lastIdxOf (c : Char) : List Char → Option Nat
  | [] => none
  | x :: xs =>
    match lastIdxOf c xs with
    | some j => some (j + 1)
    | none => if x = c then some 0 else none

/-- The group captured by `.*({.*})` on a single line, if the pattern
matches: from the last `{` before the line's last `}` through that `}`. -/
def regexGroup (l : List Char) : Option (List Char) :=
  match lastIdxOf '}' l with
  | none => none
  | some j =>
    match lastIdxOf '{' (l.take j) with
    | none => none
    | some i => some ((l.take (j + 1)).drop i)

def firstLineGroup : List (List Char) → Option (List Char)
  | [] => none
  | line :: rest =>
    match regexGroup line with
    | some g => some g
    | none => firstLineGroup rest

/-- Model of `re.search(r".*({.*})", s).groups()[0]` (braces escaped in the
source pattern): `none` models `re.search` returning `None`, which the
source turns into an `AttributeError`. -/
def reSearchCleanup (s : String) : Option String :=
  (firstLineGroup (splitNl s.data)).map String.mk

/-! ### Data model

`MailMessage` mirrors the fields of an inbound message the source reads:
IMAP uid, sender, subject, plain-text body and header map.  `imap_tools`
presents the header map as a dict from header name to a tuple of values;
it is embedded as an association list.  `MailState` is the mailbox state
the pipeline can observe and change: the source ("recruitment") folder,
the done folder and the sent folder.  Every externally visible action of
a run is recorded as an `Event`.
-/

structure MailMessage where
  uid : Nat
  from_ : String
  subject : String
  text : String
  headers : List (String × List String)
deriving Repr, DecidableEq

structure OutboundMessage where
  from_ : String
  to_addrs : List String
  subject : String
  inReplyTo : String
  body : String
deriving Repr, DecidableEq

structure MailState where
  source : List MailMessage
  done : List MailMessage
  sent : List OutboundMessage
deriving Repr, DecidableEq

inductive Event where
  | imapConnect
  | smtpConnect
  | printedMessage (message : OutboundMessage)
  | smtpSend (message : OutboundMessage)
  | appendSent (message : OutboundMessage)
  | moved (uid : Nat)
  | errorLogged (body : String)
  | smtpQuit
  | imapLogout
deriving Repr, DecidableEq

def Event.isSend : Event → Bool
  | .smtpSend _ => true
  | _ => false

def Event.isAppend : Event → Bool
  | .appendSent _ => true
  | _ => false

def Event.isMove : Event → Bool
  | .moved _ => true
  | _ => false

def Event.isPrint : Event → Bool
  | .printedMessage _ => true
  | _ => false

/-- Environment-sourced configuration (`DRY_RUN`, `BYPASS_OPENAI`,
`SIGNATURE`, `EMAIL_ADDRESS`). -/
structure Config where
  dryRun : Bool
  bypassOpenai : Bool
  signature : String
  emailAddress : String
deriving Repr

/-- Per-message behaviour of the external collaborators: whether the
completion call, the SMTP `sendmail`, the IMAP `append` (sent copy) and
the IMAP `move` raise, and the completion text returned when the
completion call succeeds. -/
structure PerMsgEnv where
  openaiOk : Bool
  completion : String
  sendOk : Bool
  saveOk : Bool
  moveOk : Bool
deriving Repr

/-! ### Mail gateway (`Mailer`) -/

/-- `Mailer._is_reply`: the lowercased header names contain
`"in-reply-to"`. -/
def is_reply (mail_message : MailMessage) : Bool :=
  (mail_message.headers.map (fun h => String.mk (h.1.data.map Char.toLower))).contains
    "in-reply-to"

/-- `Mailer.get_recruiter_emails`: every message of the source folder whose
headers do not mark it as a reply, in folder order. -/
def get_recruiter_emails (st : MailState) : List MailMessage :=
  st.source.filter (fun m => !is_reply m)

/-- `Mailer.move_to_done`: `imap_mailbox.move(email.uid, done_folder)`. -/
def move_to_done (st : MailState) (email : MailMessage) : MailState :=
  { st with
    source := st.source.filter (fun m => m.uid != email.uid)
    done := st.done ++ [email] }

/-- `Mailer.save_to_sent_folder`: `imap_mailbox.append(...)` of the sent
copy. -/
def save_to_sent_folder (st : MailState) (message : OutboundMessage) : MailState :=
  { st with sent := st.sent ++ [message] }

/-- `Mailer.compose_and_send_mail`: always prints the rendered message;
when `DRY_RUN` is off it sends over SMTP and appends the sent copy, either
of which may raise.  Returns the new state, the events, and whether the
call returned normally (`false` models an exception escaping to the
caller). -/
def compose_and_send_mail (cfg : Config) (env : PerMsgEnv) (st : MailState)
    (message : OutboundMessage) : MailState × List Event × Bool :=
  if cfg.dryRun then
    (st, [Event.printedMessage message], true)
  else if !env.sendOk then
    (st, [Event.printedMessage message], false)
  else if !env.saveOk then
    (st, [Event.printedMessage message, Event.smtpSend message], false)
  else
    (save_to_sent_folder st message,
      [Event.printedMessage message, Event.smtpSend message, Event.appendSent message],
      true)

/-! ### Name/company extractor -/

/-- The value of `json.loads` applied to the canned bypass literal
(name Steve, company Apple). -/
def canned_name_and_company : Json :=
  Json.obj [("name", Json.str "Steve"), ("company", Json.str "Apple")]

/-- Decoding of the raw completion text: regex cleanup then `json.loads`.
`Except.error ()` models the `AttributeError` (no regex match) or
`json.decoder.JSONDecodeError` the source re-raises. -/
def decode_completion (completion_text : String) : Except Unit Json :=
  match reSearchCleanup completion_text with
  | none => Except.error ()
  | some cleaned =>
    match jsonParse cleaned with
    | none => Except.error ()
    | some j => Except.ok j

/-- `get_recruiter_name_and_company`: canned data under `BYPASS_OPENAI`,
otherwise the completion call (which may raise) followed by decoding.
The completion text is an oracle; the prompt built from the email text
does not influence the embedded control flow. -/
def get_recruiter_name_and_company (cfg : Config) (env : PerMsgEnv)
    (_email_text : String) : Except Unit Json :=
  if cfg.bypassOpenai then Except.ok canned_name_and_company
  else if !env.openaiOk then Except.error ()
  else decode_completion env.completion

/-! ### Reply rendering -/

/-- Python truthiness of a JSON value (`x or default` in the f-string). -/
def pyTruthy : Json → Bool
  | Json.null => false
  | Json.bool b => b
  | Json.str s => !s.isEmpty
  | Json.num lexeme =>
    -- a valid number lexeme denotes zero exactly when every digit of its
    -- mantissa is 0
    !(((lexeme.data.takeWhile (fun c => c != 'e' && c != 'E')).filter Char.isDigit).all
        (fun c => c = '0'))
  | Json.arr xs => !xs.isEmpty
  | Json.obj kvs => !kvs.isEmpty

/-- Interpolation of a JSON value into the f-string.  Strings, null and
booleans follow Python `str`; numbers are rendered by their lexeme and
containers by a placeholder (Python's repr of containers is not modelled;
nothing in this development interpolates one). -/
def pyFormat : Json → String
  | Json.str s => s
  | Json.null => "None"
  | Json.bool true => "True"
  | Json.bool false => "False"
  | Json.num lexeme => lexeme
  | Json.arr _ => "[...]"
  | Json.obj _ => "\x7b...\x7d"

/-- `value or default`, then interpolated. -/
def orDefault (j : Json) (d : String) : String :=
  if pyTruthy j then pyFormat j else d

/-- The f-string literal of `send_response`, with its source indentation
(eight spaces on content lines, an escaped first newline, and a final line
of eight spaces before the closing quotes). -/
def response_template (recruiter_name recruiter_company : Json)
    (signature : String) : String :=
  "        Hi " ++ orDefault recruiter_name "" ++
    ",\n\n        Thanks for reaching out! I'm not interested in new opportunities at this time, but I'll keep " ++
    orDefault recruiter_company "your company" ++
    " in mind for the future.\n\n\n        Thanks again,\n        " ++ signature ++
    "\n\n        "

/-- `quoted_original`: each `splitlines()` line of the original body,
prefixed with quote-marks, accumulated left to right. -/
def quoteOriginal (text : String) : String :=
  (pySplitlines text).foldl (fun acc line => acc ++ "> " ++ line ++ "\n") ""

/-- `response_body = textwrap.dedent(response) + quoted_original`. -/
def response_body (recruiter_name recruiter_company : Json) (signature : String)
    (original_text : String) : String :=
  dedent (response_template recruiter_name recruiter_company signature) ++
    quoteOriginal original_text

/-! ### Per-message processing (`send_response`) -/

/-- Dict access `name_and_co[key]`: `none` models the `KeyError` /
`TypeError` the per-message handler catches.  A Python dict built by
`json.loads` keeps the last binding of a duplicated key. -/
def jsonIndex (j : Json) (key : String) : Option Json :=
  match j with
  | Json.obj kvs => ((kvs.filter (fun kv => kv.1 == key)).getLast?).map (fun kv => kv.2)
  | _ => none

/-- `recruiter_email.headers["message-id"][0]`: `none` models the
`KeyError` (header absent) or `IndexError` (empty value tuple). -/
def headerValue (m : MailMessage) (key : String) : Option String :=
  (m.headers.lookup key).bind List.head?

/-- The outbound message `send_response` hands to `compose_and_send_mail`,
when every step before that call succeeds: extraction, the two dict
lookups, rendering, and the `message-id` header lookup (the call's
keyword arguments are evaluated before the call itself).  `none` models
an exception in any of those steps. -/
def composed_message (cfg : Config) (env : PerMsgEnv) (recruiter_email : MailMessage) :
    Option OutboundMessage :=
  match get_recruiter_name_and_company cfg env recruiter_email.text with
  | Except.error _ => none
  | Except.ok name_and_co =>
    match jsonIndex name_and_co "name", jsonIndex name_and_co "company" with
    | some recruiter_name, some recruiter_company =>
      match headerValue recruiter_email "message-id" with
      | none => none
      | some message_id =>
        some
          { from_ := cfg.emailAddress
            to_addrs := [recruiter_email.from_]
            subject := "Re:" ++ recruiter_email.subject
            inReplyTo := message_id
            body :=
              response_body recruiter_name recruiter_company cfg.signature
                recruiter_email.text }
    | _, _ => none

/-- `send_response`: compose, send, and (live mode only) move to done;
any exception is caught at this boundary and logged together with the
offending message's body. -/
def send_response (cfg : Config) (env : PerMsgEnv) (st : MailState)
    (recruiter_email : MailMessage) : MailState × List Event :=
  match composed_message cfg env recruiter_email with
  | none => (st, [Event.errorLogged recruiter_email.text])
  | some message =>
    let r := compose_and_send_mail cfg env st message
    if !r.2.2 then
      (r.1, r.2.1 ++ [Event.errorLogged recruiter_email.text])
    else if cfg.dryRun then
      (r.1, r.2.1)
    else if !env.moveOk then
      (r.1, r.2.1 ++ [Event.errorLogged recruiter_email.text])
    else
      (move_to_done r.1 recruiter_email, r.2.1 ++ [Event.moved recruiter_email.uid])

/-- Whether `send_response` for this message runs to completion without
its handler catching an exception. -/
def message_succeeds (cfg : Config) (env : PerMsgEnv) (m : MailMessage) : Bool :=
  (composed_message cfg env m).isSome &&
    (cfg.dryRun || (env.sendOk && env.saveOk && env.moveOk))

/-! ### Batch loop and entrypoint -/

def process_list (cfg : Config) (env : MailMessage → PerMsgEnv) :
    List MailMessage → MailState → MailState × List Event
  | [], st => (st, [])
  | m :: ms, st =>
    let r1 := send_response cfg (env m) st m
    let r2 := process_list cfg env ms r1.1
    (r2.1, r1.2 ++ r2.2)

/-- `respond_to_recruitment_emails`: fetch the candidates once, then
respond to each in order. -/
def respond_to_recruitment_emails (cfg : Config) (env : MailMessage → PerMsgEnv)
    (st : MailState) : MailState × List Event :=
  process_list cfg env (get_recruiter_emails st) st

/-- `main`: the pre-flight configuration check (exit code 1, before any
connection), then connect both mail clients, fetch and respond, then
`cleanup()` — which quits only the SMTP client.  `fetchOk = false` models
the IMAP fetch raising: the exception is not caught anywhere, so the
process dies (exit code 1) without reaching `cleanup()`.  Result: exit
code, final mailbox state, event trace. -/
def main_entry (cfg : Config) (fetchOk : Bool) (env : MailMessage → PerMsgEnv)
    (st : MailState) : Nat × MailState × List Event :=
  if !cfg.dryRun && cfg.bypassOpenai then
    (1, st, [])
  else if !fetchOk then
    (1, st, [Event.imapConnect, Event.smtpConnect])
  else
    let r := respond_to_recruitment_emails cfg env st
    (0, r.1, [Event.imapConnect, Event.smtpConnect] ++ r.2 ++ [Event.smtpQuit])

/-! ### Branch equations for `send_response` -/

theorem send_response_composed_none {cfg : Config} {env : PerMsgEnv} {m : MailMessage}
    (st : MailState) (h : composed_message cfg env m = none) :
    send_response cfg env st m = (st, [Event.errorLogged m.text]) := by
  simp [send_response, h]

theorem send_response_dry {cfg : Config} {env : PerMsgEnv} {m : MailMessage}
    {msg : OutboundMessage} (st : MailState) (h : composed_message cfg env m = some msg)
    (hd : cfg.dryRun = true) :
    send_response cfg env st m = (st, [Event.printedMessage msg]) := by
  simp [send_response, compose_and_send_mail, h, hd]

theorem send_response_send_fail {cfg : Config} {env : PerMsgEnv} {m : MailMessage}
    {msg : OutboundMessage} (st : MailState) (h : composed_message cfg env m = some msg)
    (hd : cfg.dryRun = false) (hs : env.sendOk = false) :
    send_response cfg env st m
      = (st, [Event.printedMessage msg, Event.errorLogged m.text]) := by
  simp [send_response, compose_and_send_mail, h, hd, hs]

theorem send_response_save_fail {cfg : Config} {env : PerMsgEnv} {m : MailMessage}
    {msg : OutboundMessage} (st : MailState) (h : composed_message cfg env m = some msg)
    (hd : cfg.dryRun = false) (hs : env.sendOk = true) (hv : env.saveOk = false) :
    send_response cfg env st m
      = (st, [Event.printedMessage msg, Event.smtpSend msg, Event.errorLogged m.text]) := by
  simp [send_response, compose_and_send_mail, h, hd, hs, hv]

theorem send_response_move_fail {cfg : Config} {env : PerMsgEnv} {m : MailMessage}
    {msg : OutboundMessage} (st : MailState) (h : composed_message cfg env m = some msg)
    (hd : cfg.dryRun = false) (hs : env.sendOk = true) (hv : env.saveOk = true)
    (hm : env.moveOk = false) :
    send_response cfg env st m
      = (save_to_sent_folder st msg,
         [Event.printedMessage msg, Event.smtpSend msg, Event.appendSent msg,
          Event.errorLogged m.text]) := by
  simp [send_response, compose_and_send_mail, h, hd, hs, hv, hm]

theorem send_response_all_ok {cfg : Config} {env : PerMsgEnv} {m : MailMessage}
    {msg : OutboundMessage} (st : MailState) (h : composed_message cfg env m = some msg)
    (hd : cfg.dryRun = false) (hs : env.sendOk = true) (hv : env.saveOk = true)
    (hm : env.moveOk = true) :
    send_response cfg env st m
      = (move_to_done (save_to_sent_folder st msg) m,
         [Event.printedMessage msg, Event.smtpSend msg, Event.appendSent msg,
          Event.moved m.uid]) := by
  simp [send_response, compose_and_send_mail, h, hd, hs, hv, hm]

/-- The events a message produces do not depend on the mailbox state. -/
theorem send_response_events_indep (cfg : Config) (env : PerMsgEnv) (st st' : MailState)
    (m : MailMessage) :
    (send_response cfg env st m).2 = (send_response cfg env st' m).2 := by
  rcases h : composed_message cfg env m with _ | msg
  · rw [send_response_composed_none st h, send_response_composed_none st' h]
  · cases hd : cfg.dryRun
    · cases hs : env.sendOk
      · rw [send_response_send_fail st h hd hs, send_response_send_fail st' h hd hs]
      · cases hv : env.saveOk
        · rw [send_response_save_fail st h hd hs hv, send_response_save_fail st' h hd hs hv]
        · cases hm : env.moveOk
          · rw [send_response_move_fail st h hd hs hv hm,
              send_response_move_fail st' h hd hs hv hm]
          · rw [send_response_all_ok st h hd hs hv hm,
              send_response_all_ok st' h hd hs hv hm]
    · rw [send_response_dry st h hd, send_response_dry st' h hd]

/-- The batch trace is the concatenation of each message's own events, in
list order: one message's outcome never changes which events the others
produce. -/
theorem process_list_events (cfg : Config) (env : MailMessage → PerMsgEnv)
    (l : List MailMessage) (st : MailState) :
    (process_list cfg env l st).2
      = (l.map (fun m => (send_response cfg (env m) st m).2)).flatten := by
  induction l generalizing st with
  | nil => simp [process_list]
  | cons m ms ih =>
    simp only [process_list, List.map_cons, List.flatten_cons]
    rw [ih]
    congr 1
    exact congrArg List.flatten
      (List.map_congr_left fun x _ =>
        send_response_events_indep cfg (env x) (send_response cfg (env m) st m).1 st x)

/-- A message whose processing fails gets its body logged. -/
theorem errorLogged_of_failure {cfg : Config} {env : PerMsgEnv} {m : MailMessage}
    (st : MailState) (h : message_succeeds cfg env m = false) :
    Event.errorLogged m.text ∈ (send_response cfg env st m).2 := by
  rcases hc : composed_message cfg env m with _ | msg
  · rw [send_response_composed_none st hc]; simp
  · have hsome : (composed_message cfg env m).isSome = true := by simp [hc]
    simp only [message_succeeds, hsome, Bool.true_and] at h
    cases hd : cfg.dryRun
    · simp only [hd, Bool.false_or] at h
      cases hs : env.sendOk
      · rw [send_response_send_fail st hc hd hs]; simp
      · cases hv : env.saveOk
        · rw [send_response_save_fail st hc hd hs hv]; simp
        · cases hm : env.moveOk
          · rw [send_response_move_fail st hc hd hs hv hm]; simp
          · simp [hs, hv, hm] at h
    · rw [hd] at h; simp at h

/-- Dry-run mode never changes mailbox state for a message. -/
theorem send_response_state_dry {cfg : Config} (env : PerMsgEnv) (st : MailState)
    (m : MailMessage) (hd : cfg.dryRun = true) :
    (send_response cfg env st m).1 = st := by
  rcases h : composed_message cfg env m with _ | msg
  · rw [send_response_composed_none st h]
  · rw [send_response_dry st h hd]

/-- Dry-run mode never changes mailbox state for a batch. -/
theorem process_list_state_dry {cfg : Config} (env : MailMessage → PerMsgEnv)
    (l : List MailMessage) (st : MailState) (hd : cfg.dryRun = true) :
    (process_list cfg env l st).1 = st := by
  induction l generalizing st with
  | nil => rfl
  | cons m ms ih =>
    show (process_list cfg env ms (send_response cfg (env m) st m).1).1 = st
    rw [ih, send_response_state_dry (env m) st m hd]

/-- A message that fails before the send leaves the state untouched. -/
theorem send_response_state_of_early_failure {cfg : Config} {env : PerMsgEnv}
    {m : MailMessage} (st : MailState)
    (h : composed_message cfg env m = none ∨ env.sendOk = false) :
    (send_response cfg env st m).1 = st := by
  rcases hc : composed_message cfg env m with _ | msg
  · rw [send_response_composed_none st hc]
  · cases hd : cfg.dryRun
    · have hs : env.sendOk = false := by
        rcases h with h | h
        · rw [hc] at h; cases h
        · exact h
      rw [send_response_send_fail st hc hd hs]
    · rw [send_response_dry st hc hd]

/-- A fully successful live message removes exactly its uid from the
source folder. -/
theorem send_response_source_of_success {cfg : Config} {env : PerMsgEnv}
    {m : MailMessage} (st : MailState) (hd : cfg.dryRun = false)
    (h : message_succeeds cfg env m = true) :
    (send_response cfg env st m).1.source
      = st.source.filter (fun x => x.uid != m.uid) := by
  unfold message_succeeds at h
  rw [hd, Bool.false_or, Bool.and_eq_true, Bool.and_eq_true, Bool.and_eq_true] at h
  obtain ⟨hsome, ⟨hs, hv⟩, hm⟩ := h
  obtain ⟨msg, hc⟩ := Option.isSome_iff_exists.mp hsome
  rw [send_response_all_ok st hc hd hs hv hm]
  simp [move_to_done, save_to_sent_folder]

/-- After a batch in which every listed message succeeds in live mode, the
source folder retains exactly the messages whose uid matches none of the
processed ones. -/
theorem process_list_source_of_success {cfg : Config} (env : MailMessage → PerMsgEnv)
    (l : List MailMessage) (st : MailState) (hd : cfg.dryRun = false)
    (h : ∀ m ∈ l, message_succeeds cfg (env m) m = true) :
    (process_list cfg env l st).1.source
      = st.source.filter (fun x => l.all (fun m => x.uid != m.uid)) := by
  induction l generalizing st with
  | nil => simp [process_list]
  | cons m ms ih =>
    show (process_list cfg env ms (send_response cfg (env m) st m).1).1.source = _
    rw [ih _ (fun x hx => h x (List.mem_cons_of_mem m hx)),
      send_response_source_of_success st hd (h m (List.mem_cons_self m ms)),
      List.filter_filter]
    simp only [List.all_cons]
    congr 1
    funext x
    rw [Bool.and_comm]

/-- No code path ever emits an IMAP logout. -/
theorem send_response_no_imapLogout (cfg : Config) (env : PerMsgEnv) (st : MailState)
    (m : MailMessage) : Event.imapLogout ∉ (send_response cfg env st m).2 := by
  rcases h : composed_message cfg env m with _ | msg
  · rw [send_response_composed_none st h]; simp
  · cases hd : cfg.dryRun
    · cases hs : env.sendOk
      · rw [send_response_send_fail st h hd hs]; simp
      · cases hv : env.saveOk
        · rw [send_response_save_fail st h hd hs hv]; simp
        · cases hm : env.moveOk
          · rw [send_response_move_fail st h hd hs hv hm]; simp
          · rw [send_response_all_ok st h hd hs hv hm]; simp
    · rw [send_response_dry st h hd]; simp

/-- In dry-run mode a message's events carry no send, no sent-folder
append and no move. -/
theorem send_response_events_dry {cfg : Config} (env : PerMsgEnv) (st : MailState)
    (m : MailMessage) (hd : cfg.dryRun = true) :
    ∀ e ∈ (send_response cfg env st m).2,
      e.isSend = false ∧ e.isAppend = false ∧ e.isMove = false := by
  rcases h : composed_message cfg env m with _ | msg
  · rw [send_response_composed_none st h]
    intro e he
    simp at he
    subst he
    exact ⟨rfl, rfl, rfl⟩
  · rw [send_response_dry st h hd]
    intro e he
    simp at he
    subst he
    exact ⟨rfl, rfl, rfl⟩

/-! ### Characterizing the regex cleanup -/

theorem lastIdxOf_sound {c : Char} : ∀ {l : List Char} {j : Nat},
    lastIdxOf c l = some j → l[j]? = some c := by
  intro l
  induction l with
  | nil => intro j h; cases h
  | cons x xs ih =>
    intro j h
    unfold lastIdxOf at h
    rcases hx : lastIdxOf c xs with _ | j'
    · rw [hx] at h
      by_cases hc : x = c
      · simp [hc] at h
        subst h
        simp [hc]
      · simp [hc] at h
    · rw [hx] at h
      cases h
      simpa using ih hx

theorem lastIdxOf_complete {c : Char} : ∀ {l : List Char} {k : Nat},
    l[k]? = some c → ∃ j, lastIdxOf c l = some j ∧ k ≤ j := by
  intro l
  induction l with
  | nil => intro k h; simp at h
  | cons x xs ih =>
    intro k h
    cases k with
    | zero =>
      simp at h
      rcases hx : lastIdxOf c xs with _ | j'
      · exact ⟨0, by simp [lastIdxOf, hx, h], Nat.le_refl 0⟩
      · exact ⟨j' + 1, by simp [lastIdxOf, hx], Nat.zero_le _⟩
    | succ k' =>
      simp only [List.getElem?_cons_succ] at h
      obtain ⟨j', hj', hk⟩ := ih h
      exact ⟨j' + 1, by simp [lastIdxOf, hj'], Nat.succ_le_succ hk⟩

/-- The pattern dot-star-brace-group matches a line exactly when some `{`
is followed, further right, by some `}`. -/
theorem regexGroup_isSome_iff (l : List Char) :
    (regexGroup l).isSome = true ↔
      ∃ i j : Nat, i < j ∧ l[i]? = some '{' ∧ l[j]? = some '}' := by
  constructor
  · intro h
    unfold regexGroup at h
    rcases hj : lastIdxOf '}' l with _ | j
    · simp only [hj] at h; simp at h
    · simp only [hj] at h
      rcases hi : lastIdxOf '{' (l.take j) with _ | i
      · simp only [hi] at h; simp at h
      · have hjc := lastIdxOf_sound hj
        have hic := lastIdxOf_sound hi
        have hilt : i < j := by
          by_contra hge
          rw [List.getElem?_take_eq_none (Nat.le_of_not_lt hge)] at hic
          cases hic
        refine ⟨i, j, hilt, ?_, hjc⟩
        rwa [List.getElem?_take_of_lt hilt] at hic
  · rintro ⟨i, j, hij, hi, hj⟩
    obtain ⟨j', hj', hjj⟩ := lastIdxOf_complete hj
    have hij' : i < j' := Nat.lt_of_lt_of_le hij hjj
    have hi' : (l.take j')[i]? = some '{' := by
      rwa [List.getElem?_take_of_lt hij']
    obtain ⟨i', hi', _⟩ := lastIdxOf_complete hi'
    unfold regexGroup
    simp only [hj', hi', Option.isSome_some]

theorem firstLineGroup_eq_none_iff (ls : List (List Char)) :
    firstLineGroup ls = none ↔ ∀ line ∈ ls, regexGroup line = none := by
  induction ls with
  | nil => simp [firstLineGroup]
  | cons l ls ih =>
    unfold firstLineGroup
    rcases hg : regexGroup l with _ | g
    · simpa [hg] using ih
    · simp [hg]

/-! ### Appending strings -/

theorem string_append_assoc (a b c : String) : a ++ b ++ c = a ++ (b ++ c) :=
  String.ext (by simp [List.append_assoc])

theorem string_foldl_append_data (l : List String) (acc : String) :
    (l.foldl (fun r s => r ++ s) acc).data = acc.data ++ (l.map String.data).flatten := by
  induction l generalizing acc with
  | nil => simp
  | cons b bs ih =>
    simp only [List.foldl_cons, List.map_cons, List.flatten_cons]
    rw [ih]
    simp [List.append_assoc]

theorem quote_foldl_data (ls : List String) (acc : String) :
    (ls.foldl (fun acc line => acc ++ "> " ++ line ++ "\n") acc).data
      = acc.data ++ (ls.map (fun line => ("> " ++ line ++ "\n").data)).flatten := by
  induction ls generalizing acc with
  | nil => simp
  | cons x xs ih =>
    simp only [List.foldl_cons, List.map_cons, List.flatten_cons]
    rw [ih]
    simp [List.append_assoc]

/-- The accumulating quote loop of `send_response` is the concatenation of
the prefixed lines. -/
theorem quoteOriginal_eq_join (text : String) :
    quoteOriginal text
      = String.join ((pySplitlines text).map (fun line => "> " ++ line ++ "\n")) := by
  apply String.ext
  unfold quoteOriginal
  rw [quote_foldl_data]
  show _ = (((pySplitlines text).map (fun line => "> " ++ line ++ "\n")).foldl
      (fun r s => r ++ s) "").data
  rw [string_foldl_append_data]
  simp [List.map_map]
  rfl

/-! ### Concrete fixtures -/

def cfgLive : Config :=
  { dryRun := false, bypassOpenai := false, signature := "Matt",
    emailAddress := "me@example.com" }

def cfgDry : Config :=
  { dryRun := true, bypassOpenai := false, signature := "Matt",
    emailAddress := "me@example.com" }

def cfgConflict : Config :=
  { dryRun := false, bypassOpenai := true, signature := "Matt",
    emailAddress := "me@example.com" }

def goodCompletion : String :=
  "\x7b\"name\": \"Steve\", \"company\": \"Apple\"\x7d"

def envAllOk : PerMsgEnv :=
  { openaiOk := true, completion := goodCompletion, sendOk := true, saveOk := true,
    moveOk := true }

def envSendFail : PerMsgEnv := { envAllOk with sendOk := false }

def envMoveFail : PerMsgEnv := { envAllOk with moveOk := false }

def msg1 : MailMessage :=
  { uid := 1, from_ := "steve@corp.example", subject := "Opportunity at Acme",
    text := "Hi Matt!\nJoin us.", headers := [("message-id", ["<id1@corp.example>"])] }

def msgReply : MailMessage :=
  { uid := 2, from_ := "steve@corp.example", subject := "Re: hello",
    text := "replying", headers := [("in-reply-to", ["<x@y>"]), ("message-id", ["<id2@z>"])] }

def msgNoMid : MailMessage :=
  { uid := 3, from_ := "who@corp.example", subject := "hi", text := "no id here",
    headers := [("subject", ["hi"])] }

def st0 : MailState := { source := [msg1, msgReply], done := [], sent := [] }

def envF : MailMessage → PerMsgEnv := fun _ => envAllOk

def envSendFailF : MailMessage → PerMsgEnv := fun _ => envSendFail

/-- Sanity: the canned bypass value is what `json.loads` yields on the
source literal. -/
theorem canned_matches_json_loads :
    jsonParse "\x7b\"name\": \"Steve\", \"company\": \"Apple\"\x7d"
      = some canned_name_and_company := rfl

/-! ### C3: configuration-conflict pre-flight check -/

/-- C3: with `BYPASS_OPENAI=1` and `DRY_RUN=0` the run exits with code 1
during the pre-flight check: no connection is opened (empty trace) and no
mailbox state is touched. -/
theorem preflight_conflict_exits_one_before_connecting (cfg : Config) (fetchOk : Bool)
    (env : MailMessage → PerMsgEnv) (st : MailState)
    (h1 : cfg.dryRun = false) (h2 : cfg.bypassOpenai = true) :
    main_entry cfg fetchOk env st = (1, st, []) := by
  simp [main_entry, h1, h2]

theorem preflight_conflict_witness :
    main_entry cfgConflict true envF st0 = (1, st0, []) :=
  preflight_conflict_exits_one_before_connecting cfgConflict true envF st0 rfl rfl

/-! ### C10: candidate without a `message-id` header -/

theorem composed_message_none_of_no_message_id {cfg : Config} {env : PerMsgEnv}
    {m : MailMessage} (h : m.headers.lookup "message-id" = none) :
    composed_message cfg env m = none := by
  have hhv : headerValue m "message-id" = none := by
    unfold headerValue
    rw [h]
    rfl
  unfold composed_message
  rw [hhv]
  rcases hg : get_recruiter_name_and_company cfg env m.text with _ | j
  · rfl
  · rcases hn : jsonIndex j "name" with _ | n
    · simp [hn]
    · rcases hco : jsonIndex j "company" with _ | c
      · simp [hn, hco]
      · simp [hn, hco]

/-- C10: a candidate whose header map has no `message-id` entry produces
no send, no print and no move: the lookup raises before
`compose_and_send_mail` is invoked, the per-message handler logs the
error, and the mailbox state — in particular the source folder — is
untouched. -/
theorem missing_message_id_only_logs (cfg : Config) (env : PerMsgEnv) (st : MailState)
    (m : MailMessage) (h : m.headers.lookup "message-id" = none) :
    send_response cfg env st m = (st, [Event.errorLogged m.text]) :=
  send_response_composed_none st (composed_message_none_of_no_message_id h)

theorem missing_message_id_witness :
    send_response cfgLive envAllOk st0 msgNoMid
      = (st0, [Event.errorLogged msgNoMid.text]) :=
  missing_message_id_only_logs cfgLive envAllOk st0 msgNoMid rfl

/-! ### C6: candidate fetching excludes exactly the replies -/

theorem is_reply_iff (m : MailMessage) :
    is_reply m = true ↔
      ∃ h ∈ m.headers, String.mk (h.1.data.map Char.toLower) = "in-reply-to" := by
  unfold is_reply
  rw [List.contains_iff_exists_mem_beq]
  simp only [List.mem_map, beq_iff_eq]
  constructor
  · rintro ⟨x, ⟨p, hp, rfl⟩, hbeq⟩
    exact ⟨p, hp, hbeq.symm⟩
  · rintro ⟨p, hp, hple⟩
    exact ⟨String.mk (p.1.data.map Char.toLower), ⟨p, hp, rfl⟩, hple.symm⟩

/-- C6: `get_recruiter_emails` returns a message of the source folder
exactly when no header name of the message equals `in-reply-to` after
lowercasing. -/
theorem fetch_candidates_spec (st : MailState) (m : MailMessage) :
    m ∈ get_recruiter_emails st ↔
      m ∈ st.source ∧
        ¬∃ h ∈ m.headers, String.mk (h.1.data.map Char.toLower) = "in-reply-to" := by
  unfold get_recruiter_emails
  rw [List.mem_filter]
  apply and_congr_right
  intro _
  rw [← is_reply_iff]
  simp

theorem fetch_candidates_witness :
    msg1 ∈ st0.source ∧
      ¬∃ h ∈ msg1.headers, String.mk (h.1.data.map Char.toLower) = "in-reply-to" :=
  (fetch_candidates_spec st0 msg1).1 (by decide)

/-! ### C4: per-message error boundary -/

/-- C4: the batch trace is exactly the concatenation of each fetched
candidate's own events (so one message's failure never changes what is
done for the others), and every message whose processing fails gets its
body logged. -/
theorem batch_processes_all_and_logs_failures (cfg : Config)
    (env : MailMessage → PerMsgEnv) (st : MailState) :
    (respond_to_recruitment_emails cfg env st).2
      = ((get_recruiter_emails st).map (fun m => (send_response cfg (env m) st m).2)).flatten
    ∧ ∀ m ∈ get_recruiter_emails st, message_succeeds cfg (env m) m = false →
        Event.errorLogged m.text ∈ (respond_to_recruitment_emails cfg env st).2 := by
  refine ⟨process_list_events cfg env _ st, ?_⟩
  intro m hm hf
  rw [respond_to_recruitment_emails, process_list_events]
  exact List.mem_flatten.2 ⟨_, List.mem_map_of_mem _ hm, errorLogged_of_failure st hf⟩

theorem batch_logs_failures_witness :
    Event.errorLogged msg1.text ∈ (respond_to_recruitment_emails cfgLive envSendFailF st0).2 :=
  (batch_processes_all_and_logs_failures cfgLive envSendFailF st0).2 msg1 (by decide)
    (by decide)

/-! ### C5: dry-run performs no send, no append, no move -/

/-- C5: under `DRY_RUN` the batch leaves the mailbox state untouched and
its trace contains no SMTP send, no sent-folder append and no move; each
message that renders successfully is printed instead. -/
theorem dry_run_no_send_append_move (cfg : Config) (env : MailMessage → PerMsgEnv)
    (st : MailState) (hd : cfg.dryRun = true) :
    (respond_to_recruitment_emails cfg env st).1 = st
    ∧ (∀ e ∈ (respond_to_recruitment_emails cfg env st).2,
        e.isSend = false ∧ e.isAppend = false ∧ e.isMove = false)
    ∧ ∀ m ∈ get_recruiter_emails st, ∀ msg,
        composed_message cfg (env m) m = some msg →
          Event.printedMessage msg ∈ (respond_to_recruitment_emails cfg env st).2 := by
  refine ⟨process_list_state_dry env _ st hd, ?_, ?_⟩
  · intro e he
    rw [respond_to_recruitment_emails, process_list_events] at he
    obtain ⟨evs, hevs, hee⟩ := List.mem_flatten.1 he
    obtain ⟨m, hm, rfl⟩ := List.mem_map.1 hevs
    exact send_response_events_dry (env m) st m hd e hee
  · intro m hm msg hmsg
    rw [respond_to_recruitment_emails, process_list_events]
    refine List.mem_flatten.2 ⟨_, List.mem_map_of_mem _ hm, ?_⟩
    rw [send_response_dry st hmsg hd]
    simp

theorem dry_run_witness :
    (respond_to_recruitment_emails cfgDry envF st0).1 = st0 :=
  (dry_run_no_send_append_move cfgDry envF st0 rfl).1

/-! ### C1: move-to-done discipline -/

/-- C1 counterexample to the unconditional claim: in live mode, when the
SMTP send succeeds but the subsequent IMAP move raises, the reply has
been sent yet the message is moved zero times and stays in the source
folder. -/
theorem sent_but_not_moved_on_move_failure :
    (send_response cfgLive envMoveFail st0 msg1).2.any Event.isSend = true
    ∧ (send_response cfgLive envMoveFail st0 msg1).2.any Event.isMove = false
    ∧ msg1 ∈ (send_response cfgLive envMoveFail st0 msg1).1.source := by
  refine ⟨rfl, rfl, ?_⟩
  decide

/-- C1 (amended): in live mode, when the sent-folder append and the move
do not themselves raise, a message whose reply is sent is moved out of
the source folder to the done folder exactly once — the trace is exactly
print, send, append, move in that order — and a message whose extraction
or send fails leaves the state untouched. -/
theorem reply_sent_implies_single_move_after_send (cfg : Config) (env : PerMsgEnv)
    (st : MailState) (m : MailMessage) (hlive : cfg.dryRun = false) :
    (env.saveOk = true → env.moveOk = true →
      ((send_response cfg env st m).2.any Event.isSend = true →
        ∃ msg, composed_message cfg env m = some msg ∧
          (send_response cfg env st m).2
            = [Event.printedMessage msg, Event.smtpSend msg, Event.appendSent msg,
               Event.moved m.uid] ∧
          (send_response cfg env st m).1.source
            = st.source.filter (fun x => x.uid != m.uid) ∧
          m ∈ (send_response cfg env st m).1.done))
    ∧ ((composed_message cfg env m = none ∨ env.sendOk = false) →
        (send_response cfg env st m).1 = st) := by
  constructor
  · intro hv hm hsend
    rcases hc : composed_message cfg env m with _ | msg
    · rw [send_response_composed_none st hc] at hsend
      simp [Event.isSend] at hsend
    · cases hs : env.sendOk
      · rw [send_response_send_fail st hc hlive hs] at hsend
        simp [Event.isSend] at hsend
      · refine ⟨msg, rfl, ?_, ?_, ?_⟩
        · rw [send_response_all_ok st hc hlive hs hv hm]
        · rw [send_response_all_ok st hc hlive hs hv hm]
          simp [move_to_done, save_to_sent_folder]
        · rw [send_response_all_ok st hc hlive hs hv hm]
          simp [move_to_done, save_to_sent_folder]
  · exact send_response_state_of_early_failure st

theorem reply_sent_move_witness :
    ∃ msg, composed_message cfgLive envAllOk msg1 = some msg ∧
      (send_response cfgLive envAllOk st0 msg1).2
        = [Event.printedMessage msg, Event.smtpSend msg, Event.appendSent msg,
           Event.moved msg1.uid] ∧
      (send_response cfgLive envAllOk st0 msg1).1.source
        = st0.source.filter (fun x => x.uid != msg1.uid) ∧
      msg1 ∈ (send_response cfgLive envAllOk st0 msg1).1.done :=
  (reply_sent_implies_single_move_after_send cfgLive envAllOk st0 msg1 rfl).1 rfl rfl rfl

/-! ### C8: connection teardown -/

theorem respond_no_imapLogout (cfg : Config) (env : MailMessage → PerMsgEnv)
    (st : MailState) :
    Event.imapLogout ∉ (respond_to_recruitment_emails cfg env st).2 := by
  rw [respond_to_recruitment_emails, process_list_events]
  intro h
  obtain ⟨evs, hevs, he⟩ := List.mem_flatten.1 h
  obtain ⟨m, _, rfl⟩ := List.mem_map.1 hevs
  exact send_response_no_imapLogout cfg (env m) st m he

/-- C8 refutation of "both connections are closed on every exit path":
no run ever emits an IMAP logout (the source's `cleanup` quits only the
SMTP client), and when the fetch raises the uncaught exception ends the
process without even the SMTP quit. -/
theorem connections_not_closed_on_all_paths (cfg : Config) (fetchOk : Bool)
    (env : MailMessage → PerMsgEnv) (st : MailState) :
    Event.imapLogout ∉ (main_entry cfg fetchOk env st).2.2
    ∧ (cfg.dryRun = true → fetchOk = false →
        Event.smtpQuit ∉ (main_entry cfg fetchOk env st).2.2) := by
  constructor
  · by_cases hpre : (!cfg.dryRun && cfg.bypassOpenai) = true
    · simp [main_entry, hpre]
    · have hpre' : (!cfg.dryRun && cfg.bypassOpenai) = false :=
        Bool.eq_false_iff.2 hpre
      cases hf : fetchOk
      · simp [main_entry, hpre', hf]
      · have hr := respond_no_imapLogout cfg env st
        simp [main_entry, hpre', hf]
        exact fun h => absurd h hr
  · intro hd hf
    simp [main_entry, hd, hf]

theorem connections_not_closed_witness :
    Event.imapLogout ∉ (main_entry cfgDry false envF st0).2.2
    ∧ Event.smtpQuit ∉ (main_entry cfgDry false envF st0).2.2 :=
  ⟨(connections_not_closed_on_all_paths cfgDry false envF st0).1,
   (connections_not_closed_on_all_paths cfgDry false envF st0).2 rfl rfl⟩

/-! ### C9: a fully successful run leaves nothing to do -/

/-- C9: after a live run in which every candidate succeeds, the source
folder holds no candidate any more, and a second run over the resulting
state produces no events at all — in particular no further send. -/
theorem successful_run_then_second_run_sends_nothing (cfg : Config)
    (env : MailMessage → PerMsgEnv) (st : MailState) (hlive : cfg.dryRun = false)
    (hok : ∀ m ∈ get_recruiter_emails st, message_succeeds cfg (env m) m = true) :
    get_recruiter_emails (respond_to_recruitment_emails cfg env st).1 = []
    ∧ (respond_to_recruitment_emails cfg env
        (respond_to_recruitment_emails cfg env st).1).2 = [] := by
  have hsource :
      (respond_to_recruitment_emails cfg env st).1.source
        = st.source.filter
            (fun x => (get_recruiter_emails st).all (fun m => x.uid != m.uid)) :=
    process_list_source_of_success env _ st hlive hok
  have hempty : get_recruiter_emails (respond_to_recruitment_emails cfg env st).1 = [] := by
    show (respond_to_recruitment_emails cfg env st).1.source.filter _ = []
    rw [hsource, List.filter_filter]
    apply List.filter_eq_nil_iff.2
    intro x hx hcontra
    rw [Bool.and_eq_true] at hcontra
    obtain ⟨hnr, hall⟩ := hcontra
    have hxc : x ∈ get_recruiter_emails st := List.mem_filter.2 ⟨hx, hnr⟩
    have := List.all_eq_true.1 hall x hxc
    simp at this
  refine ⟨hempty, ?_⟩
  show (process_list cfg env
      (get_recruiter_emails (respond_to_recruitment_emails cfg env st).1) _).2 = []
  rw [hempty]
  rfl

theorem successful_run_witness :
    get_recruiter_emails (respond_to_recruitment_emails cfgLive envF st0).1 = []
    ∧ (respond_to_recruitment_emails cfgLive envF
        (respond_to_recruitment_emails cfgLive envF st0).1).2 = [] :=
  successful_run_then_second_run_sends_nothing cfgLive envF st0 rfl (by decide)

/-! ### C7: template round-trip -/

/-- C7: with extraction result name Steve / company Apple and signature
Matt, the rendered reply body is, character for character, the dedented
fixed template with those substitutions followed by the quoted original,
every `splitlines()` line of the original prefixed with a quote mark and
a space. -/
theorem reply_body_round_trip (original_text : String) :
    response_body (Json.str "Steve") (Json.str "Apple") "Matt" original_text
      = "Hi Steve,\n\nThanks for reaching out! I'm not interested in new opportunities at this time, but I'll keep Apple in mind for the future.\n\n\nThanks again,\nMatt\n\n"
        ++ String.join ((pySplitlines original_text).map (fun line => "> " ++ line ++ "\n")) := by
  unfold response_body
  rw [quoteOriginal_eq_join]
  have h1 : dedent (response_template (Json.str "Steve") (Json.str "Apple") "Matt")
      = "Hi Steve,\n\nThanks for reaching out! I'm not interested in new opportunities at this time, but I'll keep Apple in mind for the future.\n\n\nThanks again,\nMatt\n\n" := by
    rfl
  rw [h1]

/-- Missing name and company (JSON nulls) render the empty-name greeting
and the fallback company text rather than crashing. -/
theorem reply_body_null_fallbacks (original_text : String) :
    response_body Json.null Json.null "Matt" original_text
      = "Hi ,\n\nThanks for reaching out! I'm not interested in new opportunities at this time, but I'll keep your company in mind for the future.\n\n\nThanks again,\nMatt\n\n"
        ++ String.join ((pySplitlines original_text).map (fun line => "> " ++ line ++ "\n")) := by
  unfold response_body
  rw [quoteOriginal_eq_join]
  have h1 : dedent (response_template Json.null Json.null "Matt")
      = "Hi ,\n\nThanks for reaching out! I'm not interested in new opportunities at this time, but I'll keep your company in mind for the future.\n\n\nThanks again,\nMatt\n\n" := by
    rfl
  rw [h1]

/-! ### C2: what the extractor actually parses -/

/-- Declarative reading of the specification sentence "parses the first
JSON object found in the raw completion text": the earliest substring (by
start position, then by length) that is a syntactically valid JSON
object.  Written from the specification's words, for comparison with the
source-derived `reSearchCleanup`; it is not part of the source embedding. -/
def spec_first_json_object (s : String) : Option String :=
  (List.range s.data.length).findSome? (fun i =>
    (List.range (s.data.length - i)).findSome? (fun len =>
      let sub := String.mk ((s.data.drop i).take (len + 1))
      match jsonParse sub with
      | some (Json.obj _) => some sub
      | _ => none))

def two_objects_completion : String := "\x7b\"a\": 1\x7d \x7b\"b\": 2\x7d"

/-- C2 counterexample: on a completion holding two JSON objects, the
first JSON object found in the text is the `a` object, but the source's
regex keeps the last brace span of the line, so the extractor returns the
`b` object — the "first object" reading of the claim is false.  The two
extracted substrings differ, the `b` object the code returns has no `a`
member, and the first object parses to a different value. -/
theorem extractor_takes_last_object_not_first :
    spec_first_json_object two_objects_completion = some "\x7b\"a\": 1\x7d"
    ∧ reSearchCleanup two_objects_completion = some "\x7b\"b\": 2\x7d"
    ∧ decode_completion two_objects_completion
        = Except.ok (Json.obj [("b", Json.num "2")])
    ∧ jsonParse "\x7b\"a\": 1\x7d" = some (Json.obj [("a", Json.num "1")])
    ∧ jsonIndex (Json.obj [("b", Json.num "2")]) "a" = none
    ∧ jsonIndex (Json.obj [("a", Json.num "1")]) "a" = some (Json.num "1")
    ∧ ("\x7b\"a\": 1\x7d" : String) ≠ "\x7b\"b\": 2\x7d" := by
  refine ⟨rfl, rfl, rfl, rfl, rfl, rfl, ?_⟩
  decide

/-- C2 (amended): the extractor raises a parse error exactly when either
no newline-delimited line of the completion contains a `\x7b` followed,
further right on the same line, by a `\x7d`, or the substring the regex
extracts — on the first such line, from the last opening brace preceding
the line's last closing brace through that closing brace — is not valid
JSON. -/
theorem extractor_error_iff_no_span_or_invalid (s : String) :
    decode_completion s = Except.error ()
      ↔ ((∀ ln ∈ splitNl s.data,
            ¬∃ i j : Nat, i < j ∧ ln[i]? = some '{' ∧ ln[j]? = some '}')
          ∨ ∃ t, reSearchCleanup s = some t ∧ jsonParse t = none) := by
  constructor
  · intro h
    rcases hcl : reSearchCleanup s with _ | t
    · left
      intro ln hln
      have hnone : firstLineGroup (splitNl s.data) = none := by
        unfold reSearchCleanup at hcl
        exact Option.map_eq_none.1 hcl
      have hg := (firstLineGroup_eq_none_iff _).1 hnone ln hln
      intro hex
      have := (regexGroup_isSome_iff ln).2 hex
      rw [hg] at this
      cases this
    · right
      refine ⟨t, rfl, ?_⟩
      unfold decode_completion at h
      rw [hcl] at h
      rcases hp : jsonParse t with _ | j
      · rfl
      · simp [hp] at h
  · intro h
    rcases h with h | ⟨t, ht, hp⟩
    · have hnone : firstLineGroup (splitNl s.data) = none := by
        apply (firstLineGroup_eq_none_iff _).2
        intro ln hln
        rcases hg : regexGroup ln with _ | g
        · rfl
        · exact absurd ((regexGroup_isSome_iff ln).1 (by simp [hg])) (h ln hln)
      unfold decode_completion reSearchCleanup
      rw [hnone]
      rfl
    · unfold decode_completion
      rw [ht]
      simp [hp]

theorem extractor_error_witness :
    decode_completion "\x7b2\x7d" = Except.error () :=
  (extractor_error_iff_no_span_or_invalid "\x7b2\x7d").2
    (Or.inr ⟨"\x7b2\x7d", rfl, rfl⟩)
